import Mathlib

set_option maxHeartbeats 1000000

/-!
Shallow embedding of `user_handler.go`: the user-profile read path
(`fillUserResponse`), the icon handlers, registration, login-session
verification, and the process-wide caches (`UserByIDCache`,
`IconHashByUserIDCache`, `IconHashByUsernameCache`, plus the sibling
livestream/livecomment caches invalidated by owner ID), together with a
handler-level transition system used to reason about reachable cache states.

Modelling conventions: user IDs are `Nat`; image blobs are `List Nat`; the
content hasher (`crypto/sha256` in the source) is an explicit function
parameter `hash : List Nat → String`; SQL reads return `Except DBError`,
where `DBError.noRows` is `sql.ErrNoRows` and `DBError.storeFailure` is any
other query error; transaction commit success is an explicit boolean input.
Each handler returns, besides its result and the post-state, a trace of
effect events so that claims about "no store read" / "no cache write" are
directly observable.
-/

instance {ε α : Type} [DecidableEq ε] [DecidableEq α] : DecidableEq (Except ε α) := fun x y =>
  match x, y with
  | .ok a, .ok b =>
    if h : a = b then .isTrue (by rw [h]) else .isFalse (by intro hc; cases hc; exact h rfl)
  | .ok _, .error _ => .isFalse (by intro hc; cases hc)
  | .error _, .ok _ => .isFalse (by intro hc; cases hc)
  | .error e, .error f =>
    if h : e = f then .isTrue (by rw [h]) else .isFalse (by intro hc; cases hc; exact h rfl)

inductive DBError where
  | noRows
  | storeFailure
deriving DecidableEq

structure UserModel where
  ID : Nat
  Name : String
  DisplayName : String
  Description : String
  HashedPassword : String
deriving DecidableEq

structure ThemeModel where
  ID : Nat
  UserID : Nat
  DarkMode : Bool
deriving DecidableEq

structure Theme where
  ID : Nat
  DarkMode : Bool
deriving DecidableEq

structure User where
  ID : Nat
  Name : String
  DisplayName : String
  Description : String
  theme : Theme
  IconHash : String
deriving DecidableEq

/-- An entry of one of the sibling-domain caches (livestream / livecomment
views), which carries the owning user's ID; the spec's invalidation
interface is `invalidateByOwnerID(userID)`. -/
structure SibEntry where
  ownerID : Nat
  payload : Nat
deriving DecidableEq

/-- The relational store: the `users`, `themes` (keyed by user_id) and
`icons` (keyed by user_id) tables, as visible to a transaction. -/
structure DB where
  users : List UserModel
  themes : Nat → Except DBError ThemeModel
  icons : Nat → Except DBError (List Nat)

/-- The process-wide cache maps of the source file:
`UserByIDCache`, `IconHashByUserIDCache`, `IconHashByUsernameCache`, and
the two sibling-domain caches keyed by some cache key, whose entries carry
their owner ID. -/
structure Caches where
  userByID : Nat → Option User
  iconHashByUserID : Nat → Option String
  iconHashByUsername : String → Option String
  livestreamByID : Nat → Option SibEntry
  livecommentByID : Nat → Option SibEntry

def mapPut {κ α : Type} [DecidableEq κ] (m : κ → Option α) (k : κ) (v : α) : κ → Option α :=
  fun k2 => if k2 = k then some v else m k2

def mapDelete {κ α : Type} [DecidableEq κ] (m : κ → Option α) (k : κ) : κ → Option α :=
  fun k2 => if k2 = k then none else m k2

def mapPutE {α : Type} (m : Nat → Except DBError α) (k : Nat) (v : α) : Nat → Except DBError α :=
  fun k2 => if k2 = k then .ok v else m k2

/-- Effect events recorded by the handler models. -/
inductive Event where
  | txBegin
  | storeRead
  | storeWrite
  | fileRead
  | hashCompute
  | cacheRead
  | cacheWrite
  | cacheDelete
deriving DecidableEq

def findUserByName (db : DB) (n : String) : Option UserModel :=
  db.users.find? (fun u => u.Name == n)

def findUserByID (db : DB) (i : Nat) : Option UserModel :=
  db.users.find? (fun u => u.ID == i)

def mkUser (um : UserModel) (tm : ThemeModel) (hashStr : String) : User :=
  { ID := um.ID, Name := um.Name, DisplayName := um.DisplayName,
    Description := um.Description,
    theme := { ID := tm.ID, DarkMode := tm.DarkMode },
    IconHash := hashStr }

structure FillOut where
  res : Except DBError User
  caches : Caches
  trace : List Event

/-- `fillUserResponse` (user_handler.go:453-509): check `UserByIDCache`
first and return on hit; on miss read the theme row via the transaction
(any error fails the assembly); then consult `IconHashByUserIDCache`,
falling back to reading and hashing the icon blob, or hashing the fallback
asset when no icon row exists; populate `IconHashByUserIDCache` only when
the hash did not come from the fallback asset; compose the `User` view and
cache it in `UserByIDCache`. -/
def fillUserResponse (hash : List Nat → String) (fallbackBytes : List Nat)
    (db : DB) (caches : Caches) (userModel : UserModel) : FillOut :=
  match caches.userByID userModel.ID with
  | some user => ⟨.ok user, caches, [.cacheRead]⟩
  | none =>
    match db.themes userModel.ID with
    | .error e => ⟨.error e, caches, [.cacheRead, .storeRead]⟩
    | .ok themeModel =>
      match caches.iconHashByUserID userModel.ID with
      | some hashStr =>
        let caches1 : Caches :=
          { caches with iconHashByUserID := mapPut caches.iconHashByUserID userModel.ID hashStr }
        let user := mkUser userModel themeModel hashStr
        ⟨.ok user, { caches1 with userByID := mapPut caches1.userByID userModel.ID user },
          [.cacheRead, .storeRead, .cacheRead, .cacheWrite, .cacheWrite]⟩
      | none =>
        match db.icons userModel.ID with
        | .ok image =>
          let hashStr := hash image
          let caches1 : Caches :=
            { caches with iconHashByUserID := mapPut caches.iconHashByUserID userModel.ID hashStr }
          let user := mkUser userModel themeModel hashStr
          ⟨.ok user, { caches1 with userByID := mapPut caches1.userByID userModel.ID user },
            [.cacheRead, .storeRead, .cacheRead, .storeRead, .hashCompute, .cacheWrite, .cacheWrite]⟩
        | .error .noRows =>
          let hashStr := hash fallbackBytes
          let user := mkUser userModel themeModel hashStr
          ⟨.ok user, { caches with userByID := mapPut caches.userByID userModel.ID user },
            [.cacheRead, .storeRead, .cacheRead, .storeRead, .fileRead, .hashCompute, .cacheWrite]⟩
        | .error .storeFailure =>
          ⟨.error .storeFailure, caches, [.cacheRead, .storeRead, .cacheRead, .storeRead]⟩

/-- Go slice expression `s[low:high]` on a string: defined (as `some`) only
when `0 ≤ low ≤ high ≤ len(s)`; out of range is a run-time panic, modelled
as `none`. -/
def goStringSlice (s : String) (low high : Nat) : Option String :=
  if low ≤ high ∧ high ≤ s.length then some (String.mk ((s.toList.take high).drop low))
  else none

inductive IconResp where
  | notModified
  | okImage (image : List Nat)
  | notFoundUser
  | fallbackFile
  | internalError
  | panicked
deriving DecidableEq

structure IconOut where
  res : IconResp
  caches : Caches
  trace : List Event

/-- The transaction part of `getIconHandler` (user_handler.go:105-136):
look up the user by name, read the icon blob (no row ⇒ serve the fallback
file without caching), hash it and populate both icon-hash caches. -/
def getIconMain (hash : List Nat → String) (db : DB) (caches : Caches)
    (username : String) (tr0 : List Event) : IconOut :=
  match findUserByName db username with
  | none => ⟨.notFoundUser, caches, tr0 ++ [.txBegin, .storeRead]⟩
  | some user =>
    match db.icons user.ID with
    | .error .noRows => ⟨.fallbackFile, caches, tr0 ++ [.txBegin, .storeRead, .storeRead, .fileRead]⟩
    | .error .storeFailure => ⟨.internalError, caches, tr0 ++ [.txBegin, .storeRead, .storeRead]⟩
    | .ok image =>
      let h := hash image
      let caches1 : Caches :=
        { caches with iconHashByUsername := mapPut caches.iconHashByUsername username h }
      let caches2 : Caches :=
        { caches1 with iconHashByUserID := mapPut caches1.iconHashByUserID user.ID h }
      ⟨.okImage image, caches2,
        tr0 ++ [.txBegin, .storeRead, .storeRead, .hashCompute, .cacheWrite, .cacheWrite]⟩

/-- `getIconHandler` (user_handler.go:88-137): when an `If-None-Match`
header is present, strip its first and last byte (`ifNoneMatch[1:len-1]`,
which panics when the header has length 1) and answer `304 Not Modified`
from `IconHashByUsernameCache` on an exact match; otherwise fall through to
the transaction path. -/
def getIconHandler (hash : List Nat → String) (db : DB) (caches : Caches)
    (username : String) (ifNoneMatch : String) : IconOut :=
  if ifNoneMatch ≠ "" then
    match goStringSlice ifNoneMatch 1 (ifNoneMatch.length - 1) with
    | none => ⟨.panicked, caches, []⟩
    | some trimmed =>
      match caches.iconHashByUsername username with
      | some h =>
        if h = trimmed then ⟨.notModified, caches, [.cacheRead]⟩
        else getIconMain hash db caches username [.cacheRead]
      | none => getIconMain hash db caches username [.cacheRead]
  else getIconMain hash db caches username []

inductive SessVal where
  | i (v : Nat)
  | s (v : String)
deriving DecidableEq

/-- Session values relevant to `verifyUserSession`: the `EXPIRES` unix
timestamp (written as int64 by `loginHandler`) and the `USERID` value
(whose int64-ness `verifyUserSession` checks). -/
structure SessionData where
  expires : Option Int
  userID : Option SessVal
deriving DecidableEq

inductive AuthError where
  | getSessionFailed
  | expiresMissing
  | userIDInvalid
  | expired
deriving DecidableEq

/-- `verifyUserSession` (user_handler.go:429-451): the session handle must
exist, the session must carry an `EXPIRES` value and an int64 `USERID`
value, and the current unix time must not exceed the expiry; checks run in
that fixed order. -/
def verifyUserSession (sess : Option SessionData) (now : Int) : Except AuthError Unit :=
  match sess with
  | none => .error .getSessionFailed
  | some sd =>
    match sd.expires with
    | none => .error .expiresMissing
    | some sessionExpires =>
      match sd.userID with
      | some (.i _) =>
        if now > sessionExpires then .error .expired else .ok ()
      | _ => .error .userIDInvalid

/-- The HTTP status code and message each `verifyUserSession` rejection is
surfaced with (user_handler.go:432,437,442,447). -/
def authErrorResponse : AuthError → Nat × String
  | .getSessionFailed => (401, "failed to get session")
  | .expiresMissing => (403, "failed to get EXPIRES value from session")
  | .userIDInvalid => (401, "failed to get USERID value from session")
  | .expired => (401, "session has expired")

/-- Modelled from the spec: `deleteLivestreamByIDCacheByOwnerID` and
`deleteLivecommentByIDCacheByOwnerID` are defined outside this source file;
the spec describes the published invalidation interface as
`invalidateByOwnerID(userID)`, a bulk delete of every cached entry owned by
the given user ID, leaving entries of other owners untouched. -/
def deleteByOwnerID (m : Nat → Option SibEntry) (uid : Nat) : Nat → Option SibEntry :=
  fun k =>
    match m k with
    | some e => if e.ownerID = uid then none else some e
    | none => none

/-- The post-commit invalidation block shared by `postIconHandler`
(user_handler.go:181-185) and `registerHandler` (user_handler.go:318-322):
delete the `UserByIDCache` entry of the mutating user and fan out to the
two sibling-domain caches by owner ID. -/
def invalidateUserCaches (caches : Caches) (uid : Nat) : Caches :=
  { caches with
    userByID := mapDelete caches.userByID uid,
    livestreamByID := deleteByOwnerID caches.livestreamByID uid,
    livecommentByID := deleteByOwnerID caches.livecommentByID uid }

inductive PostIconError where
  | auth (e : AuthError)
  | sessionCorrupt
  | commitFailed
deriving DecidableEq

structure PostIconOut where
  res : Except PostIconError Nat
  db : DB
  caches : Caches
  trace : List Event

/-- `postIconHandler` (user_handler.go:139-190): verify the session, then in
a transaction delete-and-insert the user's icon row; only if the commit
succeeds, run the invalidation fan-out. On any earlier failure the deferred
rollback leaves the store unchanged. The new icon row's auto-assigned ID is
the input `newIconID`; `commitOk` tells whether `tx.Commit()` succeeds. -/
def postIconHandler (db : DB) (caches : Caches) (sess : Option SessionData) (now : Int)
    (image : List Nat) (newIconID : Nat) (commitOk : Bool) : PostIconOut :=
  match verifyUserSession sess now with
  | .error e => ⟨.error (.auth e), db, caches, []⟩
  | .ok _ =>
    match sess with
    | none => ⟨.error .sessionCorrupt, db, caches, []⟩
    | some sd =>
      match sd.userID with
      | some (.i userID) =>
        if commitOk then
          ⟨.ok newIconID,
            { db with icons := mapPutE db.icons userID image },
            invalidateUserCaches caches userID,
            [.txBegin, .storeWrite, .storeWrite, .cacheDelete, .cacheDelete, .cacheDelete]⟩
        else
          ⟨.error .commitFailed, db, caches, [.txBegin, .storeWrite, .storeWrite]⟩
      | _ => ⟨.error .sessionCorrupt, db, caches, []⟩

structure PostUserRequest where
  Name : String
  DisplayName : String
  Description : String
  Password : String
  darkMode : Bool
deriving DecidableEq

inductive RegError where
  | pipeReserved
  | insertUserFailed
  | dnsFailed
  | fillFailed (e : DBError)
  | commitFailed
deriving DecidableEq

structure RegOut where
  res : Except RegError User
  db : DB
  caches : Caches
  trace : List Event

/-- The user row inserted by `registerHandler` (user_handler.go:258-263,275),
with its auto-assigned ID. Password hashing is an external collaborator
modelled as identity. -/
def regNewUser (req : PostUserRequest) (newID : Nat) : UserModel :=
  { ID := newID, Name := req.Name, DisplayName := req.DisplayName,
    Description := req.Description, HashedPassword := req.Password }

/-- The store as visible inside the registration transaction after the user
and theme inserts (user_handler.go:265-283). -/
def regTxDB (db : DB) (req : PostUserRequest) (newID newThemeID : Nat) : DB :=
  { users := regNewUser req newID :: db.users,
    themes := mapPutE db.themes newID { ID := newThemeID, UserID := newID, DarkMode := req.darkMode },
    icons := db.icons }

/-- The tail of `registerHandler` after the response assembly
(user_handler.go:309-325): on a fill error or commit failure the deferred
rollback restores the store (but not any cache writes the fill performed);
only on a successful commit does the invalidation fan-out run. -/
def registerFinish (db txdb : DB) (newID : Nat) (commitOk : Bool)
    (fo : FillOut) : RegOut :=
  match fo.res with
  | .error e =>
    ⟨.error (.fillFailed e), db, fo.caches, [.txBegin, .storeWrite, .storeWrite] ++ fo.trace⟩
  | .ok user =>
    if commitOk then
      ⟨.ok user, txdb, invalidateUserCaches fo.caches newID,
        [.txBegin, .storeWrite, .storeWrite] ++ fo.trace ++ [.cacheDelete, .cacheDelete, .cacheDelete]⟩
    else
      ⟨.error .commitFailed, db, fo.caches, [.txBegin, .storeWrite, .storeWrite] ++ fo.trace⟩

/-- `registerHandler` (user_handler.go:234-325): reject the reserved name
"pipe" before any transaction; insert the user row (failing on a duplicate
name — the unique constraint — or an exhausted/duplicate auto-increment ID)
and its theme row; call out to PowerDNS (`dnsOk`); assemble the response
with `fillUserResponse` against the still-open transaction; commit
(`commitOk`); and only after a successful commit run the invalidation
fan-out for the new user ID. `newID`/`newThemeID` are the auto-assigned row
IDs. -/
def registerHandler (hash : List Nat → String) (fallbackBytes : List Nat)
    (db : DB) (caches : Caches) (req : PostUserRequest)
    (newID newThemeID : Nat) (dnsOk commitOk : Bool) : RegOut :=
  if req.Name = "pipe" then ⟨.error .pipeReserved, db, caches, []⟩
  else if db.users.any (fun u => u.Name == req.Name) || db.users.any (fun u => u.ID == newID) then
    ⟨.error .insertUserFailed, db, caches, [.txBegin]⟩
  else if ¬ dnsOk then ⟨.error .dnsFailed, db, caches, [.txBegin, .storeWrite, .storeWrite]⟩
  else
    registerFinish db (regTxDB db req newID newThemeID) newID commitOk
      (fillUserResponse hash fallbackBytes (regTxDB db req newID newThemeID) caches (regNewUser req newID))

structure ProfileOut where
  res : Except DBError User
  caches : Caches
  trace : List Event

/-- `getMeHandler` (user_handler.go:192-230): look the session user up by
ID and assemble the response with `fillUserResponse`. -/
def getMeHandler (hash : List Nat → String) (fallbackBytes : List Nat)
    (db : DB) (caches : Caches) (uid : Nat) : ProfileOut :=
  match findUserByID db uid with
  | none => ⟨.error .noRows, caches, [.txBegin, .storeRead]⟩
  | some um =>
    let fo := fillUserResponse hash fallbackBytes db caches um
    ⟨fo.res, fo.caches, [.txBegin, .storeRead] ++ fo.trace⟩

/-- `getUserHandler` (user_handler.go:394-427): look the requested user up
by name and assemble the response with `fillUserResponse`. -/
def getUserHandler (hash : List Nat → String) (fallbackBytes : List Nat)
    (db : DB) (caches : Caches) (username : String) : ProfileOut :=
  match findUserByName db username with
  | none => ⟨.error .noRows, caches, [.txBegin, .storeRead]⟩
  | some um =>
    let fo := fillUserResponse hash fallbackBytes db caches um
    ⟨fo.res, fo.caches, [.txBegin, .storeRead] ++ fo.trace⟩

/-- `fillUserResponseBulk` (user_handler.go:512-634, the live code path):
fold `fillUserResponse` over the given user models, stopping at the first
error. -/
def fillUserResponseBulk (hash : List Nat → String) (fallbackBytes : List Nat) (db : DB) :
    Caches → List UserModel → Except DBError (List User) × Caches
  | caches, [] => (.ok [], caches)
  | caches, um :: rest =>
    let fo := fillUserResponse hash fallbackBytes db caches um
    match fo.res with
    | .error e => (.error e, fo.caches)
    | .ok u =>
      match fillUserResponseBulk hash fallbackBytes db fo.caches rest with
      | (.error e, c2) => (.error e, c2)
      | (.ok us, c2) => (.ok (u :: us), c2)

structure SysState where
  db : DB
  caches : Caches

/-- One handler execution, as an atomic transition of the shared state. -/
inductive Step where
  | getIcon (username ifNoneMatch : String)
  | getMe (uid : Nat)
  | getUser (username : String)
  | postIcon (sess : Option SessionData) (now : Int) (image : List Nat) (newIconID : Nat) (commitOk : Bool)
  | register (req : PostUserRequest) (newID newThemeID : Nat) (dnsOk commitOk : Bool)

def stepRun (hash : List Nat → String) (fallbackBytes : List Nat) (s : SysState) : Step → SysState
  | .getIcon un inm =>
    ⟨s.db, (getIconHandler hash s.db s.caches un inm).caches⟩
  | .getMe uid =>
    ⟨s.db, (getMeHandler hash fallbackBytes s.db s.caches uid).caches⟩
  | .getUser un =>
    ⟨s.db, (getUserHandler hash fallbackBytes s.db s.caches un).caches⟩
  | .postIcon sess now image nid cOk =>
    let o := postIconHandler s.db s.caches sess now image nid cOk
    ⟨o.db, o.caches⟩
  | .register req nid ntid d c =>
    let o := registerHandler hash fallbackBytes s.db s.caches req nid ntid d c
    ⟨o.db, o.caches⟩

/-- A boot state: all caches empty, user rows with pairwise-distinct IDs
and names (the store's primary-key and unique constraints). -/
def InitState (s : SysState) : Prop :=
  (∀ k, s.caches.userByID k = none) ∧
  (∀ k, s.caches.iconHashByUserID k = none) ∧
  (∀ n, s.caches.iconHashByUsername n = none) ∧
  s.db.users.Pairwise (fun a b => a.ID ≠ b.ID ∧ a.Name ≠ b.Name)

inductive Reachable (hash : List Nat → String) (fallbackBytes : List Nat) : SysState → Prop where
  | init (s : SysState) : InitState s → Reachable hash fallbackBytes s
  | step (s : SysState) (st : Step) :
      Reachable hash fallbackBytes s → Reachable hash fallbackBytes (stepRun hash fallbackBytes s st)

def UsersWF (l : List UserModel) : Prop :=
  l.Pairwise (fun a b => a.ID ≠ b.ID ∧ a.Name ≠ b.Name)

/-- The coupling invariant between the two icon-hash caches: a by-username
entry always has a matching by-user-ID entry with the same hash for the
(unique) user of that name. -/
def IconCoherence (db : DB) (c : Caches) : Prop :=
  ∀ n h, c.iconHashByUsername n = some h →
    ∃ um, findUserByName db n = some um ∧ c.iconHashByUserID um.ID = some h

def Coherent (s : SysState) : Prop :=
  UsersWF s.db.users ∧ IconCoherence s.db s.caches

/-! ### General lemmas about the cache-map operations -/

theorem mapPut_eq {κ α : Type} [DecidableEq κ] (m : κ → Option α) (k : κ) (v : α) :
    mapPut m k v k = some v := by
  unfold mapPut
  simp

theorem mapPut_ne {κ α : Type} [DecidableEq κ] (m : κ → Option α) (k : κ) (v : α)
    (k2 : κ) (h : k2 ≠ k) : mapPut m k v k2 = m k2 := by
  unfold mapPut
  simp [h]

theorem mapPut_self {κ α : Type} [DecidableEq κ] (m : κ → Option α) (k : κ) (v : α)
    (h : m k = some v) (k2 : κ) : mapPut m k v k2 = m k2 := by
  unfold mapPut
  by_cases hk : k2 = k
  · subst hk
    simp [h]
  · simp [hk]

theorem mapDelete_eq {κ α : Type} [DecidableEq κ] (m : κ → Option α) (k : κ) :
    mapDelete m k k = none := by
  unfold mapDelete
  simp

theorem mapDelete_ne {κ α : Type} [DecidableEq κ] (m : κ → Option α) (k : κ)
    (k2 : κ) (h : k2 ≠ k) : mapDelete m k k2 = m k2 := by
  unfold mapDelete
  simp [h]

theorem deleteByOwnerID_some (m : Nat → Option SibEntry) (uid k : Nat) (e : SibEntry)
    (h : m k = some e) : deleteByOwnerID m uid k = if e.ownerID = uid then none else some e := by
  unfold deleteByOwnerID
  rw [h]

theorem deleteByOwnerID_none (m : Nat → Option SibEntry) (uid k : Nat)
    (h : m k = none) : deleteByOwnerID m uid k = none := by
  unfold deleteByOwnerID
  rw [h]

/-! ### Lemmas about the store lookups and the uniqueness constraints -/

theorem findUserByName_prop (db : DB) (n : String) (um : UserModel)
    (h : findUserByName db n = some um) : um ∈ db.users ∧ um.Name = n := by
  unfold findUserByName at h
  refine ⟨List.mem_of_find?_eq_some h, ?_⟩
  have hp := List.find?_some h
  simpa using hp

theorem findUserByID_prop (db : DB) (i : Nat) (um : UserModel)
    (h : findUserByID db i = some um) : um ∈ db.users ∧ um.ID = i := by
  unfold findUserByID at h
  refine ⟨List.mem_of_find?_eq_some h, ?_⟩
  have hp := List.find?_some h
  simpa using hp

theorem usersWF_name_inj (l : List UserModel) (h : UsersWF l) (a b : UserModel)
    (ha : a ∈ l) (hb : b ∈ l) (hn : a.Name = b.Name) : a = b := by
  by_contra hne
  have hsym : Symmetric (fun a b : UserModel => a.ID ≠ b.ID ∧ a.Name ≠ b.Name) := by
    intro x y hxy
    exact ⟨hxy.1.symm, hxy.2.symm⟩
  exact (List.Pairwise.forall hsym h ha hb hne).2 hn

theorem usersWF_id_inj (l : List UserModel) (h : UsersWF l) (a b : UserModel)
    (ha : a ∈ l) (hb : b ∈ l) (hid : a.ID = b.ID) : a = b := by
  by_contra hne
  have hsym : Symmetric (fun a b : UserModel => a.ID ≠ b.ID ∧ a.Name ≠ b.Name) := by
    intro x y hxy
    exact ⟨hxy.1.symm, hxy.2.symm⟩
  exact (List.Pairwise.forall hsym h ha hb hne).1 hid

/-! ### Branch analysis of `fillUserResponse` -/

theorem fill_iconHashByUsername_frame (hash : List Nat → String) (fb : List Nat)
    (db : DB) (c : Caches) (um : UserModel) :
    (fillUserResponse hash fb db c um).caches.iconHashByUsername = c.iconHashByUsername := by
  unfold fillUserResponse
  split
  · rfl
  · split
    · rfl
    · split
      · rfl
      · split <;> rfl

theorem fill_livestream_frame (hash : List Nat → String) (fb : List Nat)
    (db : DB) (c : Caches) (um : UserModel) :
    (fillUserResponse hash fb db c um).caches.livestreamByID = c.livestreamByID := by
  unfold fillUserResponse
  split
  · rfl
  · split
    · rfl
    · split
      · rfl
      · split <;> rfl

theorem fill_livecomment_frame (hash : List Nat → String) (fb : List Nat)
    (db : DB) (c : Caches) (um : UserModel) :
    (fillUserResponse hash fb db c um).caches.livecommentByID = c.livecommentByID := by
  unfold fillUserResponse
  split
  · rfl
  · split
    · rfl
    · split
      · rfl
      · split <;> rfl

theorem fill_userByID_frame (hash : List Nat → String) (fb : List Nat)
    (db : DB) (c : Caches) (um : UserModel) (k : Nat) (hk : k ≠ um.ID) :
    (fillUserResponse hash fb db c um).caches.userByID k = c.userByID k := by
  unfold fillUserResponse
  split
  · rfl
  · split
    · rfl
    · split
      · exact mapPut_ne _ _ _ _ hk
      · split
        · exact mapPut_ne _ _ _ _ hk
        · exact mapPut_ne _ _ _ _ hk
        · rfl

theorem fill_iconHashByUserID_spec (hash : List Nat → String) (fb : List Nat)
    (db : DB) (c : Caches) (um : UserModel) :
    ((fillUserResponse hash fb db c um).caches.iconHashByUserID = c.iconHashByUserID) ∨
    (∃ hs, c.iconHashByUserID um.ID = some hs ∧
      (fillUserResponse hash fb db c um).caches.iconHashByUserID = mapPut c.iconHashByUserID um.ID hs) ∨
    (c.iconHashByUserID um.ID = none ∧ ∃ image, db.icons um.ID = .ok image ∧
      (fillUserResponse hash fb db c um).caches.iconHashByUserID = mapPut c.iconHashByUserID um.ID (hash image)) := by
  unfold fillUserResponse
  split
  · exact .inl rfl
  · split
    · exact .inl rfl
    · split
      · next hs heq => exact .inr (.inl ⟨hs, heq, rfl⟩)
      · next hnone =>
        split
        · next image himg => exact .inr (.inr ⟨hnone, image, himg, rfl⟩)
        · exact .inl rfl
        · exact .inl rfl

theorem fill_res_ok (hash : List Nat → String) (fb : List Nat)
    (db : DB) (c : Caches) (um : UserModel) (tm : ThemeModel)
    (hTheme : db.themes um.ID = .ok tm)
    (hIcons : db.icons um.ID ≠ .error .storeFailure) :
    ∃ u, (fillUserResponse hash fb db c um).res = .ok u := by
  unfold fillUserResponse
  cases hv : c.userByID um.ID with
  | some v => exact ⟨v, rfl⟩
  | none =>
    rw [hTheme]
    cases hic : c.iconHashByUserID um.ID with
    | some hs => exact ⟨_, rfl⟩
    | none =>
      cases hi : db.icons um.ID with
      | ok image => exact ⟨_, rfl⟩
      | error e =>
        cases e with
        | noRows => exact ⟨_, rfl⟩
        | storeFailure => exact absurd hi hIcons

theorem fillUserResponse_hit (hash : List Nat → String) (fb : List Nat)
    (db : DB) (caches : Caches) (um : UserModel) (v : User)
    (h : caches.userByID um.ID = some v) :
    (fillUserResponse hash fb db caches um).res = .ok v ∧
    (fillUserResponse hash fb db caches um).caches = caches ∧
    (fillUserResponse hash fb db caches um).trace = [.cacheRead] := by
  unfold fillUserResponse
  rw [h]
  exact ⟨rfl, rfl, rfl⟩

theorem getIconMain_caches_spec (hash : List Nat → String) (db : DB) (c : Caches)
    (un : String) (tr0 : List Event) :
    (getIconMain hash db c un tr0).caches = c ∨
    (∃ um image, findUserByName db un = some um ∧ db.icons um.ID = .ok image ∧
      (getIconMain hash db c un tr0).caches =
        { c with iconHashByUsername := mapPut c.iconHashByUsername un (hash image),
                 iconHashByUserID := mapPut c.iconHashByUserID um.ID (hash image) }) := by
  unfold getIconMain
  split
  · exact .inl rfl
  · next um hf =>
    split
    · exact .inl rfl
    · exact .inl rfl
    · next image hi => exact .inr ⟨um, image, hf, hi, rfl⟩

theorem getIconHandler_caches_spec (hash : List Nat → String) (db : DB) (c : Caches)
    (un inm : String) :
    (getIconHandler hash db c un inm).caches = c ∨
    (∃ um image, findUserByName db un = some um ∧ db.icons um.ID = .ok image ∧
      (getIconHandler hash db c un inm).caches =
        { c with iconHashByUsername := mapPut c.iconHashByUsername un (hash image),
                 iconHashByUserID := mapPut c.iconHashByUserID um.ID (hash image) }) := by
  unfold getIconHandler
  split
  · split
    · exact .inl rfl
    · split
      · split
        · exact .inl rfl
        · exact getIconMain_caches_spec hash db c un [.cacheRead]
      · exact getIconMain_caches_spec hash db c un [.cacheRead]
  · exact getIconMain_caches_spec hash db c un []

theorem getMeHandler_caches_spec (hash : List Nat → String) (fb : List Nat)
    (db : DB) (c : Caches) (uid : Nat) :
    (getMeHandler hash fb db c uid).caches = c ∨
    (∃ um, findUserByID db uid = some um ∧
      (getMeHandler hash fb db c uid).caches = (fillUserResponse hash fb db c um).caches) := by
  unfold getMeHandler
  cases hf : findUserByID db uid with
  | none => exact .inl rfl
  | some um => exact .inr ⟨um, rfl, rfl⟩

theorem getUserHandler_caches_spec (hash : List Nat → String) (fb : List Nat)
    (db : DB) (c : Caches) (un : String) :
    (getUserHandler hash fb db c un).caches = c ∨
    (∃ um, findUserByName db un = some um ∧
      (getUserHandler hash fb db c un).caches = (fillUserResponse hash fb db c um).caches) := by
  unfold getUserHandler
  cases hf : findUserByName db un with
  | none => exact .inl rfl
  | some um => exact .inr ⟨um, rfl, rfl⟩

theorem postIconHandler_spec (db : DB) (c : Caches) (sess : Option SessionData) (now : Int)
    (image : List Nat) (nid : Nat) (cOk : Bool) :
    ((postIconHandler db c sess now image nid cOk).db = db ∧
     (postIconHandler db c sess now image nid cOk).caches = c) ∨
    (∃ uid, (postIconHandler db c sess now image nid cOk).db = { db with icons := mapPutE db.icons uid image } ∧
      (postIconHandler db c sess now image nid cOk).caches = invalidateUserCaches c uid) := by
  unfold postIconHandler
  split
  · exact .inl ⟨rfl, rfl⟩
  · split
    · exact .inl ⟨rfl, rfl⟩
    · split
      · split
        · exact .inr ⟨_, rfl, rfl⟩
        · exact .inl ⟨rfl, rfl⟩
      · exact .inl ⟨rfl, rfl⟩

theorem registerFinish_spec (db txdb : DB) (nid : Nat) (cOk : Bool) (fo : FillOut) :
    ((registerFinish db txdb nid cOk fo).db = db ∧
     (registerFinish db txdb nid cOk fo).caches = fo.caches) ∨
    ((registerFinish db txdb nid cOk fo).db = txdb ∧
     (registerFinish db txdb nid cOk fo).caches = invalidateUserCaches fo.caches nid) := by
  unfold registerFinish
  split
  · exact .inl ⟨rfl, rfl⟩
  · split
    · exact .inr ⟨rfl, rfl⟩
    · exact .inl ⟨rfl, rfl⟩

theorem registerHandler_spec (hash : List Nat → String) (fb : List Nat)
    (db : DB) (c : Caches) (req : PostUserRequest) (nid ntid : Nat) (d cOk : Bool) :
    ((registerHandler hash fb db c req nid ntid d cOk).db = db ∧
     (registerHandler hash fb db c req nid ntid d cOk).caches = c) ∨
    (db.users.any (fun u => u.Name == req.Name) = false ∧
     db.users.any (fun u => u.ID == nid) = false ∧
     (((registerHandler hash fb db c req nid ntid d cOk).db = db ∧
       (registerHandler hash fb db c req nid ntid d cOk).caches =
         (fillUserResponse hash fb (regTxDB db req nid ntid) c (regNewUser req nid)).caches) ∨
      ((registerHandler hash fb db c req nid ntid d cOk).db = regTxDB db req nid ntid ∧
       (registerHandler hash fb db c req nid ntid d cOk).caches =
         invalidateUserCaches (fillUserResponse hash fb (regTxDB db req nid ntid) c (regNewUser req nid)).caches nid))) := by
  unfold registerHandler
  split
  · exact .inl ⟨rfl, rfl⟩
  · split
    · exact .inl ⟨rfl, rfl⟩
    · next hcond =>
      have hcond2 : db.users.any (fun u => u.Name == req.Name) = false ∧
          db.users.any (fun u => u.ID == nid) = false := by
        constructor
        · cases hx : db.users.any (fun u => u.Name == req.Name) with
          | false => rfl
          | true => exact absurd (by rw [hx]; simp) hcond
        · cases hx : db.users.any (fun u => u.ID == nid) with
          | false => rfl
          | true => exact absurd (by rw [hx]; simp) hcond
      split
      · exact .inl ⟨rfl, rfl⟩
      · exact .inr ⟨hcond2.1, hcond2.2, registerFinish_spec _ _ _ _ _⟩

theorem coherence_after_fill (hash : List Nat → String) (fb : List Nat)
    (dbF db2 : DB) (c : Caches) (um : UserModel)
    (h : IconCoherence db2 c) : IconCoherence db2 (fillUserResponse hash fb dbF c um).caches := by
  intro n hh hsome
  rw [fill_iconHashByUsername_frame] at hsome
  obtain ⟨um2, hfind, hid⟩ := h n hh hsome
  rcases fill_iconHashByUserID_spec hash fb dbF c um with heq | ⟨hs, hcs, heq⟩ | ⟨hnone, image, himg, heq⟩
  · rw [heq]
    exact ⟨um2, hfind, hid⟩
  · rw [heq]
    refine ⟨um2, hfind, ?_⟩
    rw [mapPut_self _ _ _ hcs]
    exact hid
  · rw [heq]
    refine ⟨um2, hfind, ?_⟩
    by_cases hk : um2.ID = um.ID
    · rw [hk] at hid
      rw [hid] at hnone
      cases hnone
    · rw [mapPut_ne _ _ _ _ hk]
      exact hid

theorem coherence_invalidate (db : DB) (c : Caches) (uid : Nat)
    (h : IconCoherence db c) : IconCoherence db (invalidateUserCaches c uid) := by
  intro n hh hsome
  exact h n hh hsome

theorem coherence_after_getIcon (hash : List Nat → String) (db : DB) (c : Caches)
    (un inm : String) (hwf : UsersWF db.users) (h : IconCoherence db c) :
    IconCoherence db (getIconHandler hash db c un inm).caches := by
  rcases getIconHandler_caches_spec hash db c un inm with heq | ⟨um, image, hfind, himg, heq⟩
  · rw [heq]
    exact h
  · rw [heq]
    intro n hh hsome
    dsimp only at hsome ⊢
    by_cases hn : n = un
    · subst hn
      rw [mapPut_eq] at hsome
      cases hsome
      exact ⟨um, hfind, by rw [mapPut_eq]⟩
    · rw [mapPut_ne _ _ _ _ hn] at hsome
      obtain ⟨um2, hf2, hid2⟩ := h n hh hsome
      refine ⟨um2, hf2, ?_⟩
      by_cases hum : um2.ID = um.ID
      · have hmem1 := (findUserByName_prop db un um hfind).1
        have hmem2 := (findUserByName_prop db n um2 hf2).1
        have heq2 : um2 = um := usersWF_id_inj db.users hwf um2 um hmem2 hmem1 hum
        subst heq2
        have hn1 := (findUserByName_prop db un um2 hfind).2
        have hn2 := (findUserByName_prop db n um2 hf2).2
        exact absurd (hn2 ▸ hn1 ▸ rfl) hn
      · rw [mapPut_ne _ _ _ _ hum]
        exact hid2

theorem coherence_extend_user (db : DB) (c : Caches) (req : PostUserRequest) (nid ntid : Nat)
    (h : IconCoherence db c)
    (hFresh : db.users.any (fun u => u.Name == req.Name) = false) :
    IconCoherence (regTxDB db req nid ntid) c := by
  intro n hh hsome
  obtain ⟨um2, hfind, hid⟩ := h n hh hsome
  refine ⟨um2, ?_, hid⟩
  obtain ⟨hmem2, hname2⟩ := findUserByName_prop db n um2 hfind
  unfold findUserByName at hfind ⊢
  unfold regTxDB regNewUser
  dsimp only
  rw [List.find?_cons_of_neg]
  · exact hfind
  · intro hbeq
    have hreq : req.Name = n := by simpa using hbeq
    rw [List.any_eq_false] at hFresh
    exact hFresh um2 hmem2 (by simp [hname2, hreq])

theorem usersWF_extend (db : DB) (req : PostUserRequest) (nid : Nat)
    (hwf : UsersWF db.users)
    (hName : db.users.any (fun u => u.Name == req.Name) = false)
    (hID : db.users.any (fun u => u.ID == nid) = false) :
    UsersWF (regNewUser req nid :: db.users) := by
  rw [UsersWF, List.pairwise_cons]
  refine ⟨?_, hwf⟩
  intro b hb
  rw [List.any_eq_false] at hName hID
  constructor
  · intro hid
    apply hID b hb
    have hb2 : b.ID = nid := by simpa [regNewUser] using hid.symm
    simp [hb2]
  · intro hnm
    apply hName b hb
    have hb2 : b.Name = req.Name := by simpa [regNewUser] using hnm.symm
    simp [hb2]

theorem stepRun_coherent (hash : List Nat → String) (fb : List Nat) (s : SysState) (st : Step)
    (hc : Coherent s) : Coherent (stepRun hash fb s st) := by
  obtain ⟨hwf, hco⟩ := hc
  cases st with
  | getIcon un inm =>
    exact ⟨hwf, coherence_after_getIcon hash s.db s.caches un inm hwf hco⟩
  | getMe uid =>
    show Coherent ⟨s.db, (getMeHandler hash fb s.db s.caches uid).caches⟩
    rcases getMeHandler_caches_spec hash fb s.db s.caches uid with heq | ⟨um, hfind, heq⟩
    · refine ⟨hwf, ?_⟩
      rw [heq]
      exact hco
    · refine ⟨hwf, ?_⟩
      rw [heq]
      exact coherence_after_fill hash fb s.db s.db s.caches um hco
  | getUser un =>
    show Coherent ⟨s.db, (getUserHandler hash fb s.db s.caches un).caches⟩
    rcases getUserHandler_caches_spec hash fb s.db s.caches un with heq | ⟨um, hfind, heq⟩
    · refine ⟨hwf, ?_⟩
      rw [heq]
      exact hco
    · refine ⟨hwf, ?_⟩
      rw [heq]
      exact coherence_after_fill hash fb s.db s.db s.caches um hco
  | postIcon sess now image nid cOk =>
    show Coherent ⟨(postIconHandler s.db s.caches sess now image nid cOk).db,
                   (postIconHandler s.db s.caches sess now image nid cOk).caches⟩
    rcases postIconHandler_spec s.db s.caches sess now image nid cOk with ⟨hdb, hcaches⟩ | ⟨uid, hdb, hcaches⟩
    · rw [hdb, hcaches]
      exact ⟨hwf, hco⟩
    · rw [hdb, hcaches]
      exact ⟨hwf, coherence_invalidate s.db s.caches uid hco⟩
  | register req nid ntid d cOk =>
    show Coherent ⟨(registerHandler hash fb s.db s.caches req nid ntid d cOk).db,
                   (registerHandler hash fb s.db s.caches req nid ntid d cOk).caches⟩
    rcases registerHandler_spec hash fb s.db s.caches req nid ntid d cOk with
      ⟨hdb, hcaches⟩ | ⟨hName, hID, ⟨hdb, hcaches⟩ | ⟨hdb, hcaches⟩⟩
    · rw [hdb, hcaches]
      exact ⟨hwf, hco⟩
    · rw [hdb, hcaches]
      exact ⟨hwf, coherence_after_fill hash fb (regTxDB s.db req nid ntid) s.db s.caches (regNewUser req nid) hco⟩
    · rw [hdb, hcaches]
      refine ⟨usersWF_extend s.db req nid hwf hName hID, ?_⟩
      exact coherence_invalidate _ _ _
        (coherence_after_fill hash fb (regTxDB s.db req nid ntid) (regTxDB s.db req nid ntid) s.caches
          (regNewUser req nid)
          (coherence_extend_user s.db s.caches req nid ntid hco hName))

theorem reachable_coherent (hash : List Nat → String) (fb : List Nat) (s : SysState)
    (hr : Reachable hash fb s) : Coherent s := by
  induction hr with
  | init s hi =>
    refine ⟨hi.2.2.2, ?_⟩
    intro n hh hsome
    rw [hi.2.2.1 n] at hsome
    cases hsome
  | step s st hr ih => exact stepRun_coherent hash fb s st ih

theorem registerHandler_commit_eq (hash : List Nat → String) (fb : List Nat)
    (db : DB) (caches : Caches) (req : PostUserRequest) (nid ntid : Nat)
    (hPipe : req.Name ≠ "pipe")
    (hName : db.users.any (fun u => u.Name == req.Name) = false)
    (hID : db.users.any (fun u => u.ID == nid) = false) :
    registerHandler hash fb db caches req nid ntid true true =
      registerFinish db (regTxDB db req nid ntid) nid true
        (fillUserResponse hash fb (regTxDB db req nid ntid) caches (regNewUser req nid)) := by
  unfold registerHandler
  rw [if_neg hPipe, hName, hID]
  simp

theorem register_commit_frame (hash : List Nat → String) (fb : List Nat)
    (db : DB) (caches : Caches) (req : PostUserRequest) (nid ntid : Nat)
    (hPipe : req.Name ≠ "pipe")
    (hName : db.users.any (fun u => u.Name == req.Name) = false)
    (hID : db.users.any (fun u => u.ID == nid) = false)
    (hIcon : db.icons nid = .error .noRows) :
    (∃ u, (registerHandler hash fb db caches req nid ntid true true).res = .ok u) ∧
    (registerHandler hash fb db caches req nid ntid true true).caches.userByID nid = none ∧
    (∀ k, k ≠ nid → (registerHandler hash fb db caches req nid ntid true true).caches.userByID k = caches.userByID k) ∧
    (∀ k, (registerHandler hash fb db caches req nid ntid true true).caches.iconHashByUserID k = caches.iconHashByUserID k) ∧
    (∀ n, (registerHandler hash fb db caches req nid ntid true true).caches.iconHashByUsername n = caches.iconHashByUsername n) ∧
    (∀ k e, caches.livestreamByID k = some e →
      (registerHandler hash fb db caches req nid ntid true true).caches.livestreamByID k = if e.ownerID = nid then none else some e) ∧
    (∀ k e, caches.livecommentByID k = some e →
      (registerHandler hash fb db caches req nid ntid true true).caches.livecommentByID k = if e.ownerID = nid then none else some e) := by
  obtain ⟨u0, hres⟩ := fill_res_ok hash fb (regTxDB db req nid ntid) caches (regNewUser req nid)
    ⟨ntid, nid, req.darkMode⟩ (by simp [regTxDB, regNewUser, mapPutE]) (by simp [regTxDB, regNewUser, hIcon])
  have hfin : registerHandler hash fb db caches req nid ntid true true =
      ⟨.ok u0, regTxDB db req nid ntid,
        invalidateUserCaches (fillUserResponse hash fb (regTxDB db req nid ntid) caches (regNewUser req nid)).caches nid,
        [.txBegin, .storeWrite, .storeWrite] ++
          (fillUserResponse hash fb (regTxDB db req nid ntid) caches (regNewUser req nid)).trace ++
          [.cacheDelete, .cacheDelete, .cacheDelete]⟩ := by
    rw [registerHandler_commit_eq hash fb db caches req nid ntid hPipe hName hID]
    unfold registerFinish
    rw [hres]
    rfl
  rw [hfin]
  dsimp only [invalidateUserCaches]
  refine ⟨⟨u0, rfl⟩, mapDelete_eq _ _, ?_, ?_, ?_, ?_, ?_⟩
  · intro k hk
    exact (mapDelete_ne _ _ _ hk).trans (fill_userByID_frame hash fb _ caches _ k hk)
  · intro k
    rcases fill_iconHashByUserID_spec hash fb (regTxDB db req nid ntid) caches (regNewUser req nid) with
      heq | ⟨hs, hcs, heq⟩ | ⟨hnone, image, himg, heq⟩
    · rw [heq]
    · rw [heq]
      exact mapPut_self _ _ _ hcs k
    · have himg2 : db.icons nid = .ok image := himg
      rw [hIcon] at himg2
      cases himg2
  · intro n
    rw [fill_iconHashByUsername_frame]
  · intro k e he
    rw [fill_livestream_frame]
    exact deleteByOwnerID_some _ _ _ _ he
  · intro k e he
    rw [fill_livecomment_frame]
    exact deleteByOwnerID_some _ _ _ _ he

/-! ### Further branch lemmas used by the claims -/

theorem fillUserResponse_theme_error (hash : List Nat → String) (fb : List Nat)
    (db : DB) (caches : Caches) (um : UserModel) (e : DBError)
    (hMiss : caches.userByID um.ID = none)
    (hTheme : db.themes um.ID = .error e) :
    (fillUserResponse hash fb db caches um).res = .error e ∧
    (fillUserResponse hash fb db caches um).caches = caches ∧
    Event.cacheWrite ∉ (fillUserResponse hash fb db caches um).trace := by
  unfold fillUserResponse
  rw [hMiss, hTheme]
  refine ⟨rfl, rfl, by simp⟩

theorem fillUserResponse_fallback (hash : List Nat → String) (fb : List Nat)
    (db : DB) (caches : Caches) (um : UserModel) (tm : ThemeModel)
    (hMiss : caches.userByID um.ID = none)
    (hTheme : db.themes um.ID = .ok tm)
    (hIconMiss : caches.iconHashByUserID um.ID = none)
    (hNoIcon : db.icons um.ID = .error .noRows) :
    (fillUserResponse hash fb db caches um).res = .ok (mkUser um tm (hash fb)) ∧
    (fillUserResponse hash fb db caches um).caches.iconHashByUserID um.ID = none ∧
    (∀ k, (fillUserResponse hash fb db caches um).caches.iconHashByUserID k = caches.iconHashByUserID k) ∧
    (∀ n, (fillUserResponse hash fb db caches um).caches.iconHashByUsername n = caches.iconHashByUsername n) ∧
    Event.fileRead ∈ (fillUserResponse hash fb db caches um).trace ∧
    Event.hashCompute ∈ (fillUserResponse hash fb db caches um).trace := by
  unfold fillUserResponse
  rw [hMiss, hTheme, hIconMiss, hNoIcon]
  refine ⟨rfl, hIconMiss, fun k => rfl, fun n => rfl, by simp, by simp⟩

theorem fillUserResponse_fresh_after_replace (hash : List Nat → String) (fb : List Nat)
    (db : DB) (caches : Caches) (um : UserModel) (oldHash : String) (bNew : List Nat)
    (hView : ∀ v, caches.userByID um.ID = some v → v.IconHash ≠ oldHash)
    (hIconCache : ∀ hs, caches.iconHashByUserID um.ID = some hs → hs ≠ oldHash)
    (hBlob : db.icons um.ID = .ok bNew)
    (hNew : hash bNew ≠ oldHash) :
    ∀ u, (fillUserResponse hash fb db caches um).res = .ok u → u.IconHash ≠ oldHash := by
  intro u hu
  unfold fillUserResponse at hu
  cases hv : caches.userByID um.ID with
  | some v =>
    rw [hv] at hu
    simp at hu
    rw [← hu]
    exact hView v hv
  | none =>
    rw [hv] at hu
    cases ht : db.themes um.ID with
    | error e =>
      rw [ht] at hu
      simp at hu
    | ok tm =>
      rw [ht] at hu
      cases hic : caches.iconHashByUserID um.ID with
      | some hs =>
        rw [hic] at hu
        simp at hu
        rw [← hu]
        exact hIconCache hs hic
      | none =>
        rw [hic, hBlob] at hu
        simp at hu
        rw [← hu]
        exact hNew

/-! ### Session verification lemmas -/

/-- The success condition of `verifyUserSession`, spelled out. -/
def SessionOK (sess : Option SessionData) (now : Int) : Prop :=
  ∃ sd exp uid, sess = some sd ∧ sd.expires = some exp ∧ sd.userID = some (.i uid) ∧ now ≤ exp

theorem verify_ok_iff (sess : Option SessionData) (now : Int) :
    verifyUserSession sess now = .ok () ↔ SessionOK sess now := by
  constructor
  · intro h
    cases sess with
    | none => simp [verifyUserSession] at h
    | some sd =>
      cases hexp : sd.expires with
      | none => simp [verifyUserSession, hexp] at h
      | some exp =>
        cases huid : sd.userID with
        | none => simp [verifyUserSession, hexp, huid] at h
        | some sv =>
          cases sv with
          | s v => simp [verifyUserSession, hexp, huid] at h
          | i uid =>
            refine ⟨sd, exp, uid, rfl, hexp, huid, ?_⟩
            by_contra hlt
            push_neg at hlt
            simp [verifyUserSession, hexp, huid, hlt] at h
  · rintro ⟨sd, exp, uid, rfl, hexp, huid, hle⟩
    simp [verifyUserSession, hexp, huid, not_lt.mpr hle]

theorem verify_errors_distinguishable (e1 e2 : AuthError) (h : e1 ≠ e2) :
    authErrorResponse e1 ≠ authErrorResponse e2 := by
  cases e1 <;> cases e2 <;> simp_all [authErrorResponse]

theorem verify_failure_no_cache_touch (db : DB) (caches : Caches) (sess : Option SessionData)
    (now : Int) (image : List Nat) (nid : Nat) (cOk : Bool) (e : AuthError)
    (h : verifyUserSession sess now = .error e) :
    postIconHandler db caches sess now image nid cOk = ⟨.error (.auth e), db, caches, []⟩ := by
  unfold postIconHandler
  rw [h]

/-! ### If-None-Match handling lemmas -/

theorem goStringSlice_inBounds (s : String) (hLen : 2 ≤ s.length) :
    ∃ t, goStringSlice s 1 (s.length - 1) = some t := by
  refine ⟨String.mk ((s.toList.take (s.length - 1)).drop 1), ?_⟩
  unfold goStringSlice
  rw [if_pos ⟨by omega, by omega⟩]

theorem string_ne_empty_of_two_le (s : String) (hLen : 2 ≤ s.length) : s ≠ "" := by
  intro h
  subst h
  have h0 : ("" : String).length = 0 := rfl
  omega

theorem getIcon_notModified (hash : List Nat → String) (db : DB) (caches : Caches)
    (username : String) (inm : String) (t : String)
    (hLen : 2 ≤ inm.length)
    (hSlice : goStringSlice inm 1 (inm.length - 1) = some t)
    (hCache : caches.iconHashByUsername username = some t) :
    getIconHandler hash db caches username inm = ⟨.notModified, caches, [.cacheRead]⟩ := by
  unfold getIconHandler
  rw [if_pos (string_ne_empty_of_two_le inm hLen), hSlice, hCache]
  simp

/-! ### Invalidation frame of the successful icon-replace -/

theorem postIcon_commit_frame (db : DB) (caches : Caches) (exp now : Int) (uid : Nat)
    (image : List Nat) (nid : Nat) (hNow : now ≤ exp) :
    (postIconHandler db caches (some ⟨some exp, some (.i uid)⟩) now image nid true).res = .ok nid ∧
    (postIconHandler db caches (some ⟨some exp, some (.i uid)⟩) now image nid true).caches.userByID uid = none ∧
    (∀ k, k ≠ uid → (postIconHandler db caches (some ⟨some exp, some (.i uid)⟩) now image nid true).caches.userByID k = caches.userByID k) ∧
    (∀ k, (postIconHandler db caches (some ⟨some exp, some (.i uid)⟩) now image nid true).caches.iconHashByUserID k = caches.iconHashByUserID k) ∧
    (∀ n, (postIconHandler db caches (some ⟨some exp, some (.i uid)⟩) now image nid true).caches.iconHashByUsername n = caches.iconHashByUsername n) ∧
    (∀ k e, caches.livestreamByID k = some e →
      (postIconHandler db caches (some ⟨some exp, some (.i uid)⟩) now image nid true).caches.livestreamByID k = if e.ownerID = uid then none else some e) ∧
    (∀ k e, caches.livecommentByID k = some e →
      (postIconHandler db caches (some ⟨some exp, some (.i uid)⟩) now image nid true).caches.livecommentByID k = if e.ownerID = uid then none else some e) := by
  have hv : verifyUserSession (some ⟨some exp, some (.i uid)⟩) now = .ok () := by
    simp [verifyUserSession, not_lt.mpr hNow]
  unfold postIconHandler
  rw [hv]
  refine ⟨rfl, mapDelete_eq _ _, fun k hk => mapDelete_ne _ _ _ hk, fun k => rfl, fun n => rfl,
    fun k e he => deleteByOwnerID_some _ _ _ _ he, fun k e he => deleteByOwnerID_some _ _ _ _ he⟩

/-! ### Concrete fixtures used by witnesses and counterexamples -/

/-- A concrete stand-in for the content hasher in witnesses: distinct blob
lengths give distinct digests, which is all the concrete scenarios need. -/
def hashW (l : List Nat) : String := String.mk (List.replicate l.length 'a')

def fbW : List Nat := [0]

def umAliceW : UserModel := ⟨1, "alice", "Alice", "desc", "pw"⟩

def themeAliceW : ThemeModel := ⟨3, 1, true⟩

def dbW : DB :=
  { users := [umAliceW],
    themes := mapPutE (fun _ => .error .noRows) 1 themeAliceW,
    icons := mapPutE (fun _ => .error .noRows) 1 [1] }

def dbNoIconW : DB :=
  { users := [umAliceW],
    themes := mapPutE (fun _ => .error .noRows) 1 themeAliceW,
    icons := fun _ => .error .noRows }

def dbThemeErrW : DB :=
  { users := [umAliceW],
    themes := fun _ => .error .storeFailure,
    icons := fun _ => .error .noRows }

def dbReplacedW : DB := { dbW with icons := mapPutE dbW.icons 1 [1, 2] }

def cachesEmptyW : Caches := ⟨fun _ => none, fun _ => none, fun _ => none, fun _ => none, fun _ => none⟩

def cachesStaleW : Caches :=
  { cachesEmptyW with iconHashByUserID := mapPut cachesEmptyW.iconHashByUserID 1 (hashW [1]) }

def userHitW : User := mkUser umAliceW themeAliceW "zz"

def cachesHitW : Caches :=
  { cachesEmptyW with userByID := mapPut cachesEmptyW.userByID 1 userHitW }

def cachesSibW : Caches :=
  { cachesEmptyW with livestreamByID := mapPut cachesEmptyW.livestreamByID 7 ⟨1, 42⟩,
                      livecommentByID := mapPut cachesEmptyW.livecommentByID 8 ⟨2, 43⟩ }

def cachesUserHashW : Caches :=
  { cachesEmptyW with iconHashByUsername := mapPut cachesEmptyW.iconHashByUsername "alice" "a" }

def sessAliceW : Option SessionData := some ⟨some 10, some (.i 1)⟩

def reqBobW : PostUserRequest := ⟨"bob", "Bob", "d", "pw", false⟩

def reqPipeW : PostUserRequest := ⟨"pipe", "P", "d", "pw", false⟩

def s0W : SysState := ⟨dbW, cachesEmptyW⟩

theorem initState_s0W : InitState s0W :=
  ⟨fun _ => rfl, fun _ => rfl, fun _ => rfl, by simp [s0W, dbW]⟩

theorem reachable_s1W : Reachable hashW fbW (stepRun hashW fbW s0W (.getIcon "alice" "")) :=
  .step s0W (.getIcon "alice" "") (.init s0W initState_s0W)

/-! ### Claim C1 -/

/-- Claim C1, counterexample: an icon-replace transaction commits (the
handler answers `201` with the new icon ID) and its invalidation runs, yet
the very next assembler call for that user still returns the pre-replace
icon hash, because the stale `IconHash-by-UserID` entry — which the
invalidation fan-out does not delete — is trusted by `fillUserResponse`. -/
theorem c1_counterexample :
    (postIconHandler dbW cachesStaleW sessAliceW 0 [1, 2] 5 true).res = .ok 5 ∧
    (fillUserResponse hashW fbW
        (postIconHandler dbW cachesStaleW sessAliceW 0 [1, 2] 5 true).db
        (postIconHandler dbW cachesStaleW sessAliceW 0 [1, 2] 5 true).caches umAliceW).res =
      .ok (mkUser umAliceW themeAliceW (hashW [1])) ∧
    hashW [1] ≠ hashW [1, 2] := by
  decide

/-- Claim C1 (amended): after a committed icon replace storing blob `bNew`,
a subsequent `fillUserResponse` never returns the pre-replace icon hash,
provided the caches hold no stale pre-replace entry for that user: the
`UserView-by-UserID` entry is absent or carries a different hash (the
invalidation guarantees absence), and — the condition the code's
invalidation does NOT guarantee — the `IconHash-by-UserID` entry is absent
or differs from the pre-replace hash. -/
theorem fillUserResponse_fresh_after_replace_c1 (hash : List Nat → String) (fb : List Nat)
    (db : DB) (caches : Caches) (um : UserModel) (oldHash : String) (bNew : List Nat)
    (hView : ∀ v, caches.userByID um.ID = some v → v.IconHash ≠ oldHash)
    (hIconCache : ∀ hs, caches.iconHashByUserID um.ID = some hs → hs ≠ oldHash)
    (hBlob : db.icons um.ID = .ok bNew)
    (hNew : hash bNew ≠ oldHash) :
    ∀ u, (fillUserResponse hash fb db caches um).res = .ok u → u.IconHash ≠ oldHash :=
  fillUserResponse_fresh_after_replace hash fb db caches um oldHash bNew hView hIconCache hBlob hNew

/-- Claim C1, witness for the amended theorem at a concrete post-replace
state with cleared caches. -/
theorem c1_witness : (mkUser umAliceW themeAliceW (hashW [1, 2])).IconHash ≠ hashW [1] :=
  fillUserResponse_fresh_after_replace_c1 hashW fbW dbReplacedW cachesEmptyW umAliceW (hashW [1]) [1, 2]
    (fun v hv => nomatch hv) (fun hs hh => nomatch hh) (by decide) (by decide)
    (mkUser umAliceW themeAliceW (hashW [1, 2])) (by decide)

/-! ### Claim C2 -/

/-- Claim C2, counterexample: for a user with no stored icon, the first
assembler call computes the fallback hash (a `fileRead` and a `hashCompute`
appear in its trace), but the immediately repeated call does NOT recompute
it — it returns the same fallback-hash view from `UserView-by-UserID`
without touching the fallback file or the hasher, contradicting the claim
that repeated calls recompute the fallback hash each time. -/
theorem c2_counterexample :
    Event.hashCompute ∈ (fillUserResponse hashW fbW dbNoIconW cachesEmptyW umAliceW).trace ∧
    Event.fileRead ∈ (fillUserResponse hashW fbW dbNoIconW cachesEmptyW umAliceW).trace ∧
    (fillUserResponse hashW fbW dbNoIconW
        (fillUserResponse hashW fbW dbNoIconW cachesEmptyW umAliceW).caches umAliceW).res =
      .ok (mkUser umAliceW themeAliceW (hashW fbW)) ∧
    Event.hashCompute ∉ (fillUserResponse hashW fbW dbNoIconW
        (fillUserResponse hashW fbW dbNoIconW cachesEmptyW umAliceW).caches umAliceW).trace ∧
    Event.fileRead ∉ (fillUserResponse hashW fbW dbNoIconW
        (fillUserResponse hashW fbW dbNoIconW cachesEmptyW umAliceW).caches umAliceW).trace := by
  decide

/-- Claim C2 (amended): for a user with no stored IconBlob row, an assembler
call that misses both `UserView-by-UserID` and `IconHash-by-UserID`
computes (fallback-file read plus hash computation in the trace) and
returns the hash of the fallback asset bytes, and leaves
`IconHash-by-UserID` unpopulated for that user — so any later call that
misses the view cache recomputes the fallback hash rather than reading it
from the icon-hash cache; the composed UserView containing the fallback
hash is, however, cached in `UserView-by-UserID`. -/
theorem fillUserResponse_fallback_c2 (hash : List Nat → String) (fb : List Nat)
    (db : DB) (caches : Caches) (um : UserModel) (tm : ThemeModel)
    (hMiss : caches.userByID um.ID = none)
    (hTheme : db.themes um.ID = .ok tm)
    (hIconMiss : caches.iconHashByUserID um.ID = none)
    (hNoIcon : db.icons um.ID = .error .noRows) :
    (fillUserResponse hash fb db caches um).res = .ok (mkUser um tm (hash fb)) ∧
    (fillUserResponse hash fb db caches um).caches.iconHashByUserID um.ID = none ∧
    (∀ k, (fillUserResponse hash fb db caches um).caches.iconHashByUserID k = caches.iconHashByUserID k) ∧
    (∀ n, (fillUserResponse hash fb db caches um).caches.iconHashByUsername n = caches.iconHashByUsername n) ∧
    Event.fileRead ∈ (fillUserResponse hash fb db caches um).trace ∧
    Event.hashCompute ∈ (fillUserResponse hash fb db caches um).trace :=
  fillUserResponse_fallback hash fb db caches um tm hMiss hTheme hIconMiss hNoIcon

/-- Claim C2, witness for the amended theorem at a concrete no-icon user. -/
theorem c2_witness :
    (fillUserResponse hashW fbW dbNoIconW cachesEmptyW umAliceW).res =
      .ok (mkUser umAliceW themeAliceW (hashW fbW)) ∧
    (fillUserResponse hashW fbW dbNoIconW cachesEmptyW umAliceW).caches.iconHashByUserID 1 = none ∧
    Event.fileRead ∈ (fillUserResponse hashW fbW dbNoIconW cachesEmptyW umAliceW).trace := by
  have h := fillUserResponse_fallback_c2 hashW fbW dbNoIconW cachesEmptyW umAliceW themeAliceW
    rfl (by decide) rfl rfl
  exact ⟨h.1, h.2.1, h.2.2.2.2.1⟩

/-! ### Claim C3 -/

/-- Claim C3: evaluation at the failing input. A registration whose
transaction reaches `tx.Commit()` but whose commit fails performs no
invalidation (no `cacheDelete` in the trace) — that much matches the claim —
but the caches are NOT left unchanged: `fillUserResponse`, called before
commit, has already populated `UserView-by-UserID` for the new user ID with
a view assembled from the uncommitted rows, and this speculative entry
survives the rollback, contradicting the claim (and the spec's own UserView
invariant). -/
theorem c3_register_rollback_leaks_speculative_view :
    (registerHandler hashW fbW dbW cachesEmptyW reqBobW 2 9 true false).res = .error .commitFailed ∧
    cachesEmptyW.userByID 2 = none ∧
    (registerHandler hashW fbW dbW cachesEmptyW reqBobW 2 9 true false).caches.userByID 2 =
      some (mkUser (regNewUser reqBobW 2) ⟨9, 2, false⟩ (hashW fbW)) ∧
    Event.cacheDelete ∉ (registerHandler hashW fbW dbW cachesEmptyW reqBobW 2 9 true false).trace := by
  decide

/-! ### Claim C4 -/

/-- Claim C4: when `UserView-by-UserID` holds a view for the user, the
assembler returns it immediately — the hit performs no store read and no
cache write or delete, the cache state is returned unchanged, and a second
consecutive call returns the bit-identical view. -/
theorem c4_fill_hit_idempotent (hash : List Nat → String) (fb : List Nat)
    (db : DB) (caches : Caches) (um : UserModel) (v : User)
    (h : caches.userByID um.ID = some v) :
    (fillUserResponse hash fb db caches um).res = .ok v ∧
    (fillUserResponse hash fb db caches um).caches = caches ∧
    (fillUserResponse hash fb db (fillUserResponse hash fb db caches um).caches um).res = .ok v ∧
    (fillUserResponse hash fb db (fillUserResponse hash fb db caches um).caches um).caches = caches ∧
    Event.storeRead ∉ (fillUserResponse hash fb db caches um).trace ∧
    Event.cacheWrite ∉ (fillUserResponse hash fb db caches um).trace ∧
    Event.cacheDelete ∉ (fillUserResponse hash fb db caches um).trace := by
  obtain ⟨h1, h2, h3⟩ := fillUserResponse_hit hash fb db caches um v h
  obtain ⟨h4, h5, h6⟩ := fillUserResponse_hit hash fb db
    (fillUserResponse hash fb db caches um).caches um v (by rw [h2]; exact h)
  refine ⟨h1, h2, h4, h5.trans h2, ?_, ?_, ?_⟩ <;> rw [h3] <;> decide

/-- Claim C4, witness at a concrete cached view. -/
theorem c4_witness :
    (fillUserResponse hashW fbW dbW cachesHitW umAliceW).res = .ok userHitW ∧
    (fillUserResponse hashW fbW dbW cachesHitW umAliceW).caches = cachesHitW ∧
    (fillUserResponse hashW fbW dbW (fillUserResponse hashW fbW dbW cachesHitW umAliceW).caches umAliceW).res = .ok userHitW ∧
    (fillUserResponse hashW fbW dbW (fillUserResponse hashW fbW dbW cachesHitW umAliceW).caches umAliceW).caches = cachesHitW ∧
    Event.storeRead ∉ (fillUserResponse hashW fbW dbW cachesHitW umAliceW).trace ∧
    Event.cacheWrite ∉ (fillUserResponse hashW fbW dbW cachesHitW umAliceW).trace ∧
    Event.cacheDelete ∉ (fillUserResponse hashW fbW dbW cachesHitW umAliceW).trace :=
  c4_fill_hit_idempotent hashW fbW dbW cachesHitW umAliceW userHitW (by decide)

/-! ### Claim C5 -/

/-- Claim C5: a registration request whose name is exactly "pipe" is
rejected before any transaction is begun and before any store mutation:
the store and every cache are returned unchanged and the trace is empty. -/
theorem c5_register_pipe_rejected (hash : List Nat → String) (fb : List Nat)
    (db : DB) (caches : Caches) (req : PostUserRequest) (nid ntid : Nat) (d cOk : Bool)
    (h : req.Name = "pipe") :
    (registerHandler hash fb db caches req nid ntid d cOk).res = .error .pipeReserved ∧
    (registerHandler hash fb db caches req nid ntid d cOk).db = db ∧
    (registerHandler hash fb db caches req nid ntid d cOk).caches = caches ∧
    (registerHandler hash fb db caches req nid ntid d cOk).trace = [] ∧
    Event.txBegin ∉ (registerHandler hash fb db caches req nid ntid d cOk).trace ∧
    Event.storeWrite ∉ (registerHandler hash fb db caches req nid ntid d cOk).trace ∧
    Event.cacheDelete ∉ (registerHandler hash fb db caches req nid ntid d cOk).trace := by
  unfold registerHandler
  rw [if_pos h]
  exact ⟨rfl, rfl, rfl, rfl, by simp, by simp, by simp⟩

/-- Claim C5, witness at a concrete "pipe" registration request. -/
theorem c5_witness :
    (registerHandler hashW fbW dbW cachesEmptyW reqPipeW 2 9 true true).res = .error .pipeReserved ∧
    (registerHandler hashW fbW dbW cachesEmptyW reqPipeW 2 9 true true).db = dbW ∧
    (registerHandler hashW fbW dbW cachesEmptyW reqPipeW 2 9 true true).caches = cachesEmptyW ∧
    (registerHandler hashW fbW dbW cachesEmptyW reqPipeW 2 9 true true).trace = [] ∧
    Event.txBegin ∉ (registerHandler hashW fbW dbW cachesEmptyW reqPipeW 2 9 true true).trace ∧
    Event.storeWrite ∉ (registerHandler hashW fbW dbW cachesEmptyW reqPipeW 2 9 true true).trace ∧
    Event.cacheDelete ∉ (registerHandler hashW fbW dbW cachesEmptyW reqPipeW 2 9 true true).trace :=
  c5_register_pipe_rejected hashW fbW dbW cachesEmptyW reqPipeW 2 9 true true rfl

/-! ### Claim C6 -/

/-- Claim C6: an assembler call that misses `UserView-by-UserID` fails with
exactly the store error produced by the theme read (the no-rows case
included), returns no UserView, and performs no cache write — the cache
state is returned unchanged. -/
theorem c6_fill_theme_unreadable (hash : List Nat → String) (fb : List Nat)
    (db : DB) (caches : Caches) (um : UserModel) (e : DBError)
    (hMiss : caches.userByID um.ID = none)
    (hTheme : db.themes um.ID = .error e) :
    (fillUserResponse hash fb db caches um).res = .error e ∧
    (∀ u, (fillUserResponse hash fb db caches um).res ≠ .ok u) ∧
    (fillUserResponse hash fb db caches um).caches = caches ∧
    Event.cacheWrite ∉ (fillUserResponse hash fb db caches um).trace := by
  obtain ⟨h1, h2, h3⟩ := fillUserResponse_theme_error hash fb db caches um e hMiss hTheme
  refine ⟨h1, fun u hu => ?_, h2, h3⟩
  rw [h1] at hu
  cases hu

/-- Claim C6, witness at a concrete state whose theme read fails. -/
theorem c6_witness :
    (fillUserResponse hashW fbW dbThemeErrW cachesEmptyW umAliceW).res = .error .storeFailure ∧
    (fillUserResponse hashW fbW dbThemeErrW cachesEmptyW umAliceW).caches = cachesEmptyW := by
  have h := c6_fill_theme_unreadable hashW fbW dbThemeErrW cachesEmptyW umAliceW .storeFailure rfl rfl
  exact ⟨h.1, h.2.2.1⟩

/-! ### Claim C7 -/

/-- Claim C7: `verifyUserSession` succeeds exactly when the session handle
exists, the session carries an expiry timestamp and an int64 user-ID claim,
and the current time is at most the expiry; distinct failing checks map to
distinguishable (status, message) rejections; and on any authentication
failure the protected icon-upload handler returns with store, caches and
trace untouched — the authenticator itself never reads or writes a cache
map. -/
theorem c7_verifyUserSession_spec :
    (∀ sess now, verifyUserSession sess now = .ok () ↔ SessionOK sess now) ∧
    (∀ e1 e2 : AuthError, e1 ≠ e2 → authErrorResponse e1 ≠ authErrorResponse e2) ∧
    (∀ db caches sess now image nid cOk e, verifyUserSession sess now = .error e →
      postIconHandler db caches sess now image nid cOk = ⟨.error (.auth e), db, caches, []⟩) :=
  ⟨verify_ok_iff, verify_errors_distinguishable, verify_failure_no_cache_touch⟩

/-- Claim C7, witness: a valid session passes, two distinct rejections are
distinguishable, and a missing session leaves the state untouched. -/
theorem c7_witness :
    verifyUserSession (some ⟨some 10, some (.i 1)⟩) 5 = .ok () ∧
    authErrorResponse .getSessionFailed ≠ authErrorResponse .expired ∧
    postIconHandler dbW cachesEmptyW none 0 [1] 5 true =
      ⟨.error (.auth .getSessionFailed), dbW, cachesEmptyW, []⟩ := by
  refine ⟨?_, ?_, ?_⟩
  · exact (c7_verifyUserSession_spec.1 (some ⟨some 10, some (.i 1)⟩) 5).mpr
      ⟨_, 10, 1, rfl, rfl, rfl, by omega⟩
  · exact c7_verifyUserSession_spec.2.1 .getSessionFailed .expired (by decide)
  · exact c7_verifyUserSession_spec.2.2 dbW cachesEmptyW none 0 [1] 5 true .getSessionFailed rfl

/-! ### Claim C8 -/

/-- Claim C8: in every state reachable from a boot state (empty caches,
store rows satisfying the primary-key and unique-name constraints) by any
sequence of handler executions, whenever both `IconHash-by-Username` (under
a user's name) and `IconHash-by-UserID` (under that user's ID) are
populated, they hold the same hash value. -/
theorem c8_iconHash_caches_agree (hash : List Nat → String) (fb : List Nat) (s : SysState)
    (hr : Reachable hash fb s) (um : UserModel) (hmem : um ∈ s.db.users)
    (h1 h2 : String)
    (hu : s.caches.iconHashByUsername um.Name = some h1)
    (hi : s.caches.iconHashByUserID um.ID = some h2) : h1 = h2 := by
  obtain ⟨hwf, hco⟩ := reachable_coherent hash fb s hr
  obtain ⟨um2, hfind, hid⟩ := hco um.Name h1 hu
  obtain ⟨hmem2, hname2⟩ := findUserByName_prop s.db um.Name um2 hfind
  have heq : um2 = um := usersWF_name_inj s.db.users hwf um2 um hmem2 hmem hname2
  subst heq
  rw [hid] at hi
  exact Option.some.inj hi

/-- Claim C8, witness: in the reachable state obtained by one icon fetch
from a boot state, both icon-hash caches are populated for the user and the
theorem yields their agreement. -/
theorem c8_witness :
    (stepRun hashW fbW s0W (.getIcon "alice" "")).caches.iconHashByUsername "alice" = some (hashW [1]) ∧
    (stepRun hashW fbW s0W (.getIcon "alice" "")).caches.iconHashByUserID 1 = some (hashW [1]) ∧
    hashW [1] = hashW [1] := by
  refine ⟨by decide, by decide, ?_⟩
  exact c8_iconHash_caches_agree hashW fbW _ reachable_s1W umAliceW (by decide)
    (hashW [1]) (hashW [1]) (by decide) (by decide)

/-! ### Claim C9 -/

/-- Claim C9: the successful icon-replace and registration flows invalidate
exactly the `UserView-by-UserID` entry of the mutating (or newly created)
user ID plus the entries owned by that ID in the two sibling-domain caches;
they never delete (or change) any entry of `IconHash-by-UserID` or
`IconHash-by-Username`, and every cache entry keyed by another user or
owned by another owner is unchanged. For registration, the new ID is fresh
(auto-increment) and has no icon row. -/
theorem c9_invalidation_exact_frame :
    (∀ (db : DB) (caches : Caches) (exp now : Int) (uid : Nat) (image : List Nat) (nid : Nat),
      now ≤ exp →
      (postIconHandler db caches (some ⟨some exp, some (.i uid)⟩) now image nid true).caches.userByID uid = none ∧
      (∀ k, k ≠ uid → (postIconHandler db caches (some ⟨some exp, some (.i uid)⟩) now image nid true).caches.userByID k = caches.userByID k) ∧
      (∀ k, (postIconHandler db caches (some ⟨some exp, some (.i uid)⟩) now image nid true).caches.iconHashByUserID k = caches.iconHashByUserID k) ∧
      (∀ n, (postIconHandler db caches (some ⟨some exp, some (.i uid)⟩) now image nid true).caches.iconHashByUsername n = caches.iconHashByUsername n) ∧
      (∀ k e, caches.livestreamByID k = some e →
        (postIconHandler db caches (some ⟨some exp, some (.i uid)⟩) now image nid true).caches.livestreamByID k = if e.ownerID = uid then none else some e) ∧
      (∀ k e, caches.livecommentByID k = some e →
        (postIconHandler db caches (some ⟨some exp, some (.i uid)⟩) now image nid true).caches.livecommentByID k = if e.ownerID = uid then none else some e)) ∧
    (∀ (hash : List Nat → String) (fb : List Nat) (db : DB) (caches : Caches)
       (req : PostUserRequest) (nid ntid : Nat),
      req.Name ≠ "pipe" →
      db.users.any (fun u => u.Name == req.Name) = false →
      db.users.any (fun u => u.ID == nid) = false →
      db.icons nid = .error .noRows →
      (registerHandler hash fb db caches req nid ntid true true).caches.userByID nid = none ∧
      (∀ k, k ≠ nid → (registerHandler hash fb db caches req nid ntid true true).caches.userByID k = caches.userByID k) ∧
      (∀ k, (registerHandler hash fb db caches req nid ntid true true).caches.iconHashByUserID k = caches.iconHashByUserID k) ∧
      (∀ n, (registerHandler hash fb db caches req nid ntid true true).caches.iconHashByUsername n = caches.iconHashByUsername n) ∧
      (∀ k e, caches.livestreamByID k = some e →
        (registerHandler hash fb db caches req nid ntid true true).caches.livestreamByID k = if e.ownerID = nid then none else some e) ∧
      (∀ k e, caches.livecommentByID k = some e →
        (registerHandler hash fb db caches req nid ntid true true).caches.livecommentByID k = if e.ownerID = nid then none else some e)) := by
  constructor
  · intro db caches exp now uid image nid hNow
    obtain ⟨_, h2, h3, h4, h5, h6, h7⟩ := postIcon_commit_frame db caches exp now uid image nid hNow
    exact ⟨h2, h3, h4, h5, h6, h7⟩
  · intro hash fb db caches req nid ntid hPipe hName hID hIcon
    obtain ⟨_, h2, h3, h4, h5, h6, h7⟩ := register_commit_frame hash fb db caches req nid ntid hPipe hName hID hIcon
    exact ⟨h2, h3, h4, h5, h6, h7⟩

/-- Claim C9, witness: concrete invalidations — the replaced user's view
entry is gone, a sibling entry owned by the user is gone, one owned by
another user survives, and the icon-hash caches are untouched, for both
flows. -/
theorem c9_witness :
    (postIconHandler dbW cachesSibW (some ⟨some 10, some (.i 1)⟩) 0 [1, 2] 5 true).caches.userByID 1 = none ∧
    (postIconHandler dbW cachesSibW (some ⟨some 10, some (.i 1)⟩) 0 [1, 2] 5 true).caches.iconHashByUserID 1 = cachesSibW.iconHashByUserID 1 ∧
    (postIconHandler dbW cachesSibW (some ⟨some 10, some (.i 1)⟩) 0 [1, 2] 5 true).caches.livestreamByID 7 = none ∧
    (postIconHandler dbW cachesSibW (some ⟨some 10, some (.i 1)⟩) 0 [1, 2] 5 true).caches.livecommentByID 8 = some ⟨2, 43⟩ ∧
    (registerHandler hashW fbW dbW cachesSibW reqBobW 2 9 true true).caches.userByID 2 = none ∧
    (registerHandler hashW fbW dbW cachesSibW reqBobW 2 9 true true).caches.iconHashByUsername "alice" = cachesSibW.iconHashByUsername "alice" ∧
    (registerHandler hashW fbW dbW cachesSibW reqBobW 2 9 true true).caches.livecommentByID 8 = none := by
  obtain ⟨hpost, hreg⟩ := c9_invalidation_exact_frame
  obtain ⟨p1, _, p3, _, p5, p6⟩ := hpost dbW cachesSibW 10 0 1 [1, 2] 5 (by omega)
  obtain ⟨r1, _, _, r4, _, r6⟩ := hreg hashW fbW dbW cachesSibW reqBobW 2 9 (by decide) (by decide) (by decide) (by decide)
  refine ⟨p1, p3 1, ?_, ?_, r1, r4 "alice", ?_⟩
  · have := p5 7 ⟨1, 42⟩ (by decide)
    simpa using this
  · have := p6 8 ⟨2, 43⟩ (by decide)
    simpa using this
  · have := r6 8 ⟨2, 43⟩ (by decide)
    simpa using this

/-! ### Claim C10 -/

/-- Claim C10, counterexample: the quote-stripping slice
`ifNoneMatch[1:len-1]` is NOT in bounds for every non-empty header value —
a length-1 header such as `If-None-Match: *` (a value HTTP permits) makes
the slice bounds `1:0`, which panics at run time. -/
theorem c10_counterexample :
    goStringSlice "*" 1 (("*" : String).length - 1) = none ∧
    (getIconHandler hashW dbW cachesEmptyW "alice" "*").res = .panicked := by
  decide

/-- Claim C10 (amended): for every `If-None-Match` header value of length
at least 2, the quote-stripping slice is in bounds, and whenever the
stripped value equals the by-username cached hash the handler answers
`304 Not Modified` with the caches unchanged, performing no store read and
beginning no transaction. -/
theorem c10_ifNoneMatch_safe (hash : List Nat → String) (db : DB) (caches : Caches)
    (username inm : String) (hLen : 2 ≤ inm.length) :
    (∃ t, goStringSlice inm 1 (inm.length - 1) = some t) ∧
    (∀ t, goStringSlice inm 1 (inm.length - 1) = some t →
      caches.iconHashByUsername username = some t →
      (getIconHandler hash db caches username inm).res = .notModified ∧
      (getIconHandler hash db caches username inm).caches = caches ∧
      Event.storeRead ∉ (getIconHandler hash db caches username inm).trace ∧
      Event.txBegin ∉ (getIconHandler hash db caches username inm).trace) := by
  refine ⟨goStringSlice_inBounds inm hLen, ?_⟩
  intro t hSlice hCache
  have h := getIcon_notModified hash db caches username inm t hLen hSlice hCache
  rw [h]
  exact ⟨rfl, rfl, by simp, by simp⟩

def etagW : String := "\"a\""

/-- Claim C10, witness: a quoted ETag matching the cached hash yields a 304
without any store read. -/
theorem c10_witness :
    (getIconHandler hashW dbW cachesUserHashW "alice" etagW).res = .notModified ∧
    (getIconHandler hashW dbW cachesUserHashW "alice" etagW).caches = cachesUserHashW ∧
    Event.storeRead ∉ (getIconHandler hashW dbW cachesUserHashW "alice" etagW).trace := by
  have h := c10_ifNoneMatch_safe hashW dbW cachesUserHashW "alice" etagW (by decide)
  have h2 := h.2 "a" (by decide) (by decide)
  exact ⟨h2.1, h2.2.1, h2.2.2.1⟩
